import Mathlib

/-!
Verification development for the movie data analysis module
(`movie_data_analysis.py`): a shallow embedding of the data model, the
date normalizer `parse_date`, and the five aggregation operations
(`movie_type`, `actor_count`, `actor_distributions`, `releases`, `ages`)
of the `MovieDataAnalyzer` class, together with theorems settling the
specification claims about them.

Modelling conventions:
- Python runtime values passed as arguments are modelled by `PyVal`
  (dynamic typing: `isinstance` checks and truthiness are explicit).
- Raised exceptions are modelled by `Except PyErr`; `TypeError` and
  `ValueError` are the two error kinds the module raises.
- pandas missing values (`NaN` / `NaT` / `None`) are modelled by
  `Option`; a pandas comparison against a missing value is `false`,
  `value_counts` drops missing values, `groupby` drops missing keys.
- Python floats are modelled by `ℚ`: all float literals appearing in the
  module and the claims are decimal, and the comparisons performed on
  them agree with rational comparisons.
- `pd.Timestamp` is modelled by `Date` (year, month, day) together with
  the nanosecond range bound of pandas timestamps: outside
  [1677-09-21 00:12, 2262-04-11 23:47] `pd.to_datetime` raises
  `OutOfBoundsDatetime`, a subclass of `ValueError`, which `parse_date`
  catches exactly like a failed format match (`inTimestampRange`).
- `pd.to_datetime(s, format=f)` for the three formats used by the module
  is modelled by `to_datetime_Ymd`, `to_datetime_Ym`, `to_datetime_Y`,
  following strptime: `%Y` is exactly four ASCII digits, `%m` is one or
  two digits giving 1..12, `%d` is one or two digits (or a space and a
  digit) giving 1..31, the match must consume the whole string, and the
  resulting calendar date must exist (day within the month length,
  year at least 1); a failed match is `none` (the raised `ValueError`
  is caught by `parse_date`, which tries the next format).
-/

namespace MovieData

/-- A Python runtime value, as far as the module inspects one:
strings, ints, floats (as rationals), bools and `None`. -/
inductive PyVal where
  | vstr (s : String)
  | vint (n : Int)
  | vfloat (q : ℚ)
  | vbool (b : Bool)
  | vnone
  deriving DecidableEq

/-- The two exception kinds raised by the module. -/
inductive PyErr where
  | typeError (msg : String)
  | valueError (msg : String)
  deriving DecidableEq

/-- Python truthiness of a `PyVal` (`if genre:` and similar guards). -/
def pyTruthy : PyVal → Bool
  | .vstr s => s ≠ ""
  | .vint n => n ≠ 0
  | .vfloat q => q ≠ 0
  | .vbool b => b
  | .vnone => false

/-- `isinstance(v, str)`. -/
def isStrInstance : PyVal → Bool
  | .vstr _ => true
  | _ => false

/-- `isinstance(v, int)`: Python bools are ints. -/
def isIntInstance : PyVal → Bool
  | .vint _ => true
  | .vbool _ => true
  | _ => false

/-- `isinstance(v, (int, float))`: Python bools are ints. -/
def isNumericInstance : PyVal → Bool
  | .vint _ => true
  | .vfloat _ => true
  | .vbool _ => true
  | _ => false

/-- The numeric value of a numeric `PyVal` (junk 0 on non-numeric values,
which every use site rules out beforehand). -/
def pyToRat : PyVal → ℚ
  | .vint n => (n : ℚ)
  | .vfloat q => q
  | .vbool b => if b then 1 else 0
  | _ => 0

/-- The integer value of an int-instance `PyVal` (junk 0 otherwise). -/
def pyToInt : PyVal → Int
  | .vint n => n
  | .vbool b => if b then 1 else 0
  | _ => 0

/-- The string of a string `PyVal` (junk "" otherwise). -/
def pyStr : PyVal → String
  | .vstr s => s
  | _ => ""

/-- Python `==` between two `PyVal`s: numbers (ints, floats, bools)
compare by numeric value, strings by string value, `None` only equals
`None`, and no value of one of these groups equals a value of another. -/
def pyEq (a b : PyVal) : Bool :=
  if isNumericInstance a ∧ isNumericInstance b then pyToRat a = pyToRat b
  else
    match a, b with
    | .vstr x, .vstr y => x = y
    | .vnone, .vnone => true
    | _, _ => false

/-- A calendar date: the model of a `pd.Timestamp` at day resolution
(the module only ever reads `.year` and `.month`). -/
structure Date where
  year : Nat
  month : Nat
  day : Nat
  deriving DecidableEq

/-- ASCII digit test (the `\d` of the strptime patterns). -/
def isDig (c : Char) : Bool := 48 ≤ c.toNat ∧ c.toNat ≤ 57

/-- Numeric value of an ASCII digit character. -/
def digitVal (c : Char) : Nat := c.toNat - 48

/-- Python `str.strip()` whitespace test. -/
def isPySpace (c : Char) : Bool :=
  c = ' ' ∨ c = '\t' ∨ c = '\n' ∨ c = '\r' ∨ c.toNat = 11 ∨ c.toNat = 12

/-- Python `str.strip()`: remove leading and trailing whitespace. -/
def pyStrip (s : String) : String :=
  ((s.toList.dropWhile isPySpace).reverse.dropWhile isPySpace).reverse.asString

/-- strptime `%Y`: exactly four ASCII digits. -/
def parseYear4 : List Char → Option Nat
  | [a, b, c, d] =>
    if isDig a ∧ isDig b ∧ isDig c ∧ isDig d then
      some (1000 * digitVal a + 100 * digitVal b + 10 * digitVal c + digitVal d)
    else none
  | _ => none

/-- strptime `%m`: one digit 1-9 or two digits giving 01-12. -/
def parseMonthPart : List Char → Option Nat
  | [c] =>
    if isDig c ∧ 1 ≤ digitVal c then some (digitVal c) else none
  | [c1, c2] =>
    if isDig c1 ∧ isDig c2 ∧ 1 ≤ 10 * digitVal c1 + digitVal c2 ∧
        10 * digitVal c1 + digitVal c2 ≤ 12 then
      some (10 * digitVal c1 + digitVal c2)
    else none
  | _ => none

/-- strptime `%d`: one digit 1-9 (optionally preceded by a space) or two
digits giving 01-31. -/
def parseDayPart : List Char → Option Nat
  | [c] =>
    if isDig c ∧ 1 ≤ digitVal c then some (digitVal c) else none
  | [' ', c] =>
    if isDig c ∧ 1 ≤ digitVal c then some (digitVal c) else none
  | [c1, c2] =>
    if isDig c1 ∧ isDig c2 ∧ 1 ≤ 10 * digitVal c1 + digitVal c2 ∧
        10 * digitVal c1 + digitVal c2 ≤ 31 then
      some (10 * digitVal c1 + digitVal c2)
    else none
  | _ => none

/-- Split a character list on every dash, the single-character case of
`str.split("-")` (adjacent dashes give empty fragments, a string with no
dash gives itself as the only fragment). The strptime match of a format
with dashes decomposes the subject exactly this way, because no dash can
fall inside a `%Y`/`%m`/`%d` fragment. -/
def splitOnDash : List Char → List (List Char)
  | [] => [[]]
  | c :: rest =>
    if c = '-' then [] :: splitOnDash rest
    else
      match splitOnDash rest with
      | [] => [[c]]
      | g :: gs => (c :: g) :: gs

/-- Gregorian leap year (the rule `datetime` uses). -/
def isLeap (y : Nat) : Bool :=
  y % 4 = 0 ∧ (y % 100 ≠ 0 ∨ y % 400 = 0)

/-- Number of days in a month. -/
def daysInMonth (y m : Nat) : Nat :=
  if m = 2 then (if isLeap y then 29 else 28)
  else if m = 4 ∨ m = 6 ∨ m = 9 ∨ m = 11 then 30
  else 31

/-- The midnight dates representable as pandas nanosecond timestamps:
`Timestamp.min` is 1677-09-21 00:12:43.145224193 and `Timestamp.max` is
2262-04-11 23:47:16.854775807, so a date at time 00:00:00 fits exactly
when it lies between 1677-09-22 and 2262-04-11 inclusive. Outside this
range `pd.to_datetime` raises `OutOfBoundsDatetime`, a subclass of
`ValueError`, which `parse_date` catches like any failed match. -/
def inTimestampRange (y m d : Nat) : Bool :=
  (1678 ≤ y ∨ (y = 1677 ∧ (10 ≤ m ∨ (m = 9 ∧ 22 ≤ d)))) ∧
  (y ≤ 2261 ∨ (y = 2262 ∧ (m ≤ 3 ∨ (m = 4 ∧ d ≤ 11))))

/-- `pd.to_datetime(t, format="%Y-%m-%d")`: the whole string must be
year, month and day separated by single dashes, the resulting calendar
date must exist, and the timestamp must be representable. `none` models
the raised `ValueError` (including `OutOfBoundsDatetime`). -/
def to_datetime_Ymd (t : String) : Option Date :=
  match splitOnDash t.toList with
  | [ys, ms, ds] =>
    match parseYear4 ys, parseMonthPart ms, parseDayPart ds with
    | some y, some m, some d =>
      if 1 ≤ y ∧ d ≤ daysInMonth y m ∧ inTimestampRange y m d then
        some ⟨y, m, d⟩
      else none
    | _, _, _ => none
  | _ => none

/-- `pd.to_datetime(t, format="%Y-%m")`: year and month separated by a
single dash; the day is zero-filled to 1 and the resulting timestamp
must be representable. -/
def to_datetime_Ym (t : String) : Option Date :=
  match splitOnDash t.toList with
  | [ys, ms] =>
    match parseYear4 ys, parseMonthPart ms with
    | some y, some m =>
      if 1 ≤ y ∧ inTimestampRange y m 1 then some ⟨y, m, 1⟩ else none
    | _, _ => none
  | _ => none

/-- `pd.to_datetime(t, format="%Y")`: a bare four-digit year; month and
day are zero-filled to 1 and the resulting January 1 timestamp must be
representable (so only the years 1678..2262 are accepted; a year such as
1500 raises `OutOfBoundsDatetime` and `parse_date` yields `NaT`). -/
def to_datetime_Y (t : String) : Option Date :=
  match splitOnDash t.toList with
  | [ys] =>
    match parseYear4 ys with
    | some y =>
      if 1 ≤ y ∧ inTimestampRange y 1 1 then some ⟨y, 1, 1⟩ else none
    | _ => none
  | _ => none

/-- `MovieDataAnalyzer.parse_date`: `None`/`NaN` gives `NaT` (modelled
`none`); otherwise the stripped string is tried against the formats
`%Y-%m-%d`, `%Y-%m`, `%Y` in that order, the first match wins, and if
none matches the result is `NaT`. Total by construction. -/
def parse_date (date_str : Option String) : Option Date :=
  match date_str with
  | none => none
  | some s =>
    let t := pyStrip s
    match to_datetime_Ymd t with
    | some d => some d
    | none =>
      match to_datetime_Ym t with
      | some d => some d
      | none => to_datetime_Y t

/-- One row of `character.metadata.tsv` as read by the loader, before
the date normalization pass (`actor_date_of_birth` still raw). -/
structure RawCharacterRow where
  wikipedia_movie_id : Option Int
  freebase_movie_id : Option String
  movie_release_date : Option String
  character_name : Option String
  actor_date_of_birth : Option String
  actor_gender : Option String
  actor_height : Option ℚ
  actor_ethnicity : Option String
  actor_name : Option String
  actor_age_at_movie_release : Option ℚ
  freebase_character_actor_map_id : Option String
  freebase_character_id : Option String
  freebase_actor_id : Option String
  deriving DecidableEq

/-- One row of the loaded `characters` table: the loader has applied
`parse_date` to `actor_date_of_birth`. -/
structure CharacterRow where
  wikipedia_movie_id : Option Int
  freebase_movie_id : Option String
  movie_release_date : Option String
  character_name : Option String
  actor_date_of_birth : Option Date
  actor_gender : Option String
  actor_height : Option ℚ
  actor_ethnicity : Option String
  actor_name : Option String
  actor_age_at_movie_release : Option ℚ
  freebase_character_actor_map_id : Option String
  freebase_character_id : Option String
  freebase_actor_id : Option String
  deriving DecidableEq

/-- The date-normalization pass the loader applies to one character row:
`self.characters["actor_date_of_birth"].apply(MovieDataAnalyzer.parse_date)`. -/
def loadCharacterRow (r : RawCharacterRow) : CharacterRow :=
  { wikipedia_movie_id := r.wikipedia_movie_id
    freebase_movie_id := r.freebase_movie_id
    movie_release_date := r.movie_release_date
    character_name := r.character_name
    actor_date_of_birth := parse_date r.actor_date_of_birth
    actor_gender := r.actor_gender
    actor_height := r.actor_height
    actor_ethnicity := r.actor_ethnicity
    actor_name := r.actor_name
    actor_age_at_movie_release := r.actor_age_at_movie_release
    freebase_character_actor_map_id := r.freebase_character_actor_map_id
    freebase_character_id := r.freebase_character_id
    freebase_actor_id := r.freebase_actor_id }

/-- The loaded `characters` table built from the raw file rows. -/
def loadCharacters (rs : List RawCharacterRow) : List CharacterRow :=
  rs.map loadCharacterRow

/-- One row of the loaded `movie_metadata` table (the loader has applied
`parse_date` to `movie_release_date`). -/
structure MovieRow where
  wikipedia_movie_id : Option Int
  freebase_movie_id : Option String
  movie_name : Option String
  movie_release_date : Option Date
  movie_box_office_revenue : Option ℚ
  movie_runtime : Option ℚ
  movie_languages : Option String
  movie_countries : Option String
  movie_genres : Option String
  deriving DecidableEq

/-- One row of the loaded `name_clusters` table. -/
structure NameClusterRow where
  name : Option String
  actor_id : Option String
  deriving DecidableEq

/-- One row of the loaded `plot_summaries` table. -/
structure PlotSummaryRow where
  wikipedia_movie_id : Option Int
  summary : Option String
  deriving DecidableEq

/-- One row of the loaded `tvtropes_clusters` table. -/
structure TvTropesRow where
  name : Option String
  cluster : Option String
  deriving DecidableEq

/-- The five loaded tables held by a `MovieDataAnalyzer` instance. -/
structure Analyzer where
  characters : List CharacterRow
  movie_metadata : List MovieRow
  name_clusters : List NameClusterRow
  plot_summaries : List PlotSummaryRow
  tvtropes_clusters : List TvTropesRow
  deriving DecidableEq

/-! ### pandas list machinery

`value_counts` keeps one entry per distinct value with its number of
occurrences, sorted by count descending; `sort_values` re-sorts by the
named column. Ties in a pandas sort are implementation-defined; every
use in the module either re-sorts by a column of distinct keys or is
consumed only up to ordering by count, so a stable insertion sort is an
adequate model. -/

/-- Fueled worker for `firstDedup`: structural recursion on the fuel so
that concrete tables evaluate inside the kernel. With fuel at least the
length of the list it keeps the head and recurses on the tail with the
head's duplicates filtered out. -/
def firstDedupF {α : Type} [DecidableEq α] : Nat → List α → List α
  | _, [] => []
  | 0, _ :: _ => []
  | fuel + 1, a :: l => a :: firstDedupF fuel (l.filter fun x => x ≠ a)

/-- The distinct values of a list in order of first appearance. -/
def firstDedup {α : Type} [DecidableEq α] (l : List α) : List α :=
  firstDedupF l.length l

/-- Descending-by-count order on (value, count) pairs. -/
def sndGE {α : Type} (p q : α × Nat) : Prop := q.2 ≤ p.2

instance {α : Type} : DecidableRel (@sndGE α) :=
  fun p q => inferInstanceAs (Decidable (q.2 ≤ p.2))

instance {α : Type} : IsTotal (α × Nat) sndGE :=
  ⟨fun p q => by simp only [sndGE]; exact Nat.le_total q.2 p.2⟩

instance {α : Type} : IsTrans (α × Nat) sndGE :=
  ⟨fun _ _ _ h1 h2 => Nat.le_trans h2 h1⟩

/-- Ascending order on the first component of (value, count) pairs. -/
def fstLE {α : Type} [LinearOrder α] (p q : α × Nat) : Prop := p.1 ≤ q.1

instance {α : Type} [LinearOrder α] : DecidableRel (@fstLE α _) :=
  fun p q => inferInstanceAs (Decidable (p.1 ≤ q.1))

instance {α : Type} [LinearOrder α] : IsTotal (α × Nat) fstLE :=
  ⟨fun p q => le_total p.1 q.1⟩

instance {α : Type} [LinearOrder α] : IsTrans (α × Nat) fstLE :=
  ⟨fun _ _ _ h1 h2 => le_trans h1 h2⟩

/-- Plain ascending order, for the sorted group keys of a `groupby`. -/
def ascLE {α : Type} [LinearOrder α] (a b : α) : Prop := a ≤ b

instance {α : Type} [LinearOrder α] : DecidableRel (@ascLE α _) :=
  fun a b => inferInstanceAs (Decidable (a ≤ b))

instance {α : Type} [LinearOrder α] : IsTotal α ascLE := ⟨le_total⟩

instance {α : Type} [LinearOrder α] : IsTrans α ascLE :=
  ⟨fun _ _ _ h1 h2 => le_trans h1 h2⟩

/-- `Series.value_counts()`: one `(value, count)` pair per distinct
value, sorted by count descending (missing values are dropped by the
caller before this point - every call site passes a list of present
values). -/
def valueCounts {α : Type} [DecidableEq α] (l : List α) : List (α × Nat) :=
  List.insertionSort sndGE ((firstDedup l).map fun v => (v, l.count v))

/-- `sort_values` by the value column of a `(value, count)` table. -/
def sortByFst {α : Type} [LinearOrder α] (l : List (α × Nat)) : List (α × Nat) :=
  List.insertionSort fstLE l

/-! ### The five aggregation operations -/

/-- One exploded genre fragment of `movie_type`: remove the characters
matched by the regex class of double quote, curly braces and comma,
strip whitespace, split on single spaces and keep the last token
(`.str.split(" ").str[-1]`; Python split on an explicit separator never
returns an empty list, so the last token of the empty string is ""). -/
def genreToken (part : String) : String :=
  let cleaned := (part.toList.filter fun c =>
    !(c = '"' ∨ c = '{' ∨ c = '}' ∨ c = ',')).asString
  ((pyStrip cleaned).splitOn " ").getLastD ""

/-- The genre tokens one movie row contributes to `movie_type`: split
the raw genre string on commas and process each fragment. A missing
genre string stays missing through the whole string pipeline and is
dropped by `value_counts`, so it contributes nothing. -/
def genreTokensOfMovie (mr : MovieRow) : List String :=
  match mr.movie_genres with
  | none => []
  | some s => (s.splitOn ",").map genreToken

/-- The exploded genre token series over the whole movie table. -/
def allGenreTokens (movies : List MovieRow) : List String :=
  movies.flatMap genreTokensOfMovie

/-- The number of distinct genre tokens in the loaded movie data. -/
def distinctGenreCount (movies : List MovieRow) : Nat :=
  (firstDedup (allGenreTokens movies)).length

/-- `MovieDataAnalyzer.movie_type(n)`: after validating that `n` is a
positive integer, count the occurrences of every genre token and return
the top `n` (`value_counts().head(n)`). -/
def movie_type (n : PyVal) (movies : List MovieRow) :
    Except PyErr (List (String × Nat)) :=
  if !isIntInstance n then .error (.typeError "n must be an integer")
  else if pyToInt n ≤ 0 then .error (.valueError "n must be a positive integer")
  else .ok ((valueCounts (allGenreTokens movies)).take (pyToInt n).toNat)

/-- `MovieDataAnalyzer.actor_count()`: group the character rows by
`wikipedia_movie_id` (missing ids are dropped by the grouping, keys are
sorted ascending), take each group's size, histogram the sizes with
`value_counts` and sort ascending by the number of actors. -/
def actor_count (chars : List CharacterRow) : List (Nat × Nat) :=
  let ids := chars.filterMap fun r => r.wikipedia_movie_id
  let keys := List.insertionSort ascLE (firstDedup ids)
  let sizes := keys.map fun k => ids.count k
  sortByFst (valueCounts sizes)

/-- The height column of the filtered frame of `actor_distributions`:
rows filtered by exact gender match unless the gender is "All" (a pandas
comparison against a missing gender is false), then rows whose height
lies in the inclusive range (comparisons against a missing height are
false), then `dropna` on the height column. -/
def height_series (g : String) (minq maxq : ℚ)
    (chars : List CharacterRow) : List ℚ :=
  let filtered1 := if g ≠ "All" then
      chars.filter (fun r => r.actor_gender = some g)
    else chars
  let filtered2 := filtered1.filter fun r =>
    match r.actor_height with
    | some h => decide (h ≤ maxq) && decide (minq ≤ h)
    | none => false
  let filtered3 := filtered2.filter fun r => r.actor_height.isSome
  filtered3.filterMap fun r => r.actor_height

/-- `MovieDataAnalyzer.actor_distributions(gender, max_height,
min_height)`: validate the argument types, then that the height range is
non-inverted and within (0, 3]; filter rows by exact gender match unless
the gender is "All" (a pandas comparison against a missing gender is
false), keep rows whose height lies in the inclusive range (comparisons
against a missing height are false), drop rows with missing heights, and
return the height histogram sorted ascending by height. -/
def actor_distributions (gender max_height min_height : PyVal)
    (chars : List CharacterRow) : Except PyErr (List (ℚ × Nat)) :=
  if !isStrInstance gender then .error (.typeError "gender must be a string")
  else if !(isNumericInstance max_height && isNumericInstance min_height) then
    .error (.typeError "max_height and min_height must be numeric")
  else if pyToRat max_height < pyToRat min_height then
    .error (.valueError "max_height must be greater than or equal to min_height")
  else if pyToRat max_height ≤ 0 ∨ pyToRat min_height ≤ 0 ∨
      3 < pyToRat max_height ∨ 3 < pyToRat min_height then
    .error (.valueError "max_height and min_height must be positive values")
  else
    .ok (sortByFst (valueCounts
      (height_series (pyStr gender) (pyToRat min_height) (pyToRat max_height) chars)))

/-- All fragments the regex `"([^"]+)"` extracts from one string: the
non-overlapping maximal runs of non-quote characters enclosed in double
quotes, left to right (in a genre string these are the Freebase ids and
the display names alike). -/
def extractQuoted (s : String) : List String :=
  (go s.toList none []).reverse
where
  /-- Fold with state: `none` outside quotes, `some buf` inside a
  candidate match with the reversed content read so far. -/
  go : List Char → Option (List Char) → List (List Char) → List String
    | [], _, acc => acc.map fun cs => cs.reverse.asString
    | c :: rest, none, acc =>
      if c = '"' then go rest (some []) acc else go rest none acc
    | c :: rest, some buf, acc =>
      if c = '"' then
        match buf with
        | [] => go rest (some []) acc
        | _ => go rest none (buf :: acc)
      else go rest (some (c :: buf)) acc

/-- `releases`: the distinct quoted fragments of the loaded movie genre
strings (`str.extractall` skips missing values; `unique()` keeps first
appearances). -/
def valid_genres (movies : List MovieRow) : List String :=
  firstDedup (movies.flatMap fun m =>
    match m.movie_genres with
    | some g => extractQuoted g
    | none => [])

/-- `Series.str.contains(pat)` for the patterns the module passes
(genre names, which are free of regex metacharacters): substring
containment. -/
def strContainsSub (hay needle : String) : Bool :=
  decide (needle.toList <:+: hay.toList)

/-- `MovieDataAnalyzer.releases(genre)`: a truthy non-string genre is a
`TypeError`; a truthy genre absent from the quoted fragments of the
loaded genre strings is a `ValueError`; a falsy genre (`None`, the empty
string, zero) skips both checks and the genre filter. Then count movies
per release year (movies with a missing release year are dropped) and
sort ascending by year. Rows whose genre string is missing are excluded
by the genre filter when it runs. -/
def releases (genre : PyVal) (movies : List MovieRow) :
    Except PyErr (List (Nat × Nat)) :=
  if pyTruthy genre && !isStrInstance genre then
    .error (.typeError "genre must be a string")
  else if pyTruthy genre && !((valid_genres movies).contains (pyStr genre)) then
    .error (.valueError "Invalid genre")
  else
    let rel := movies.map fun m => (m.movie_release_date.map Date.year, m.movie_genres)
    let rel := if pyTruthy genre then
        rel.filter fun p =>
          match p.2 with
          | some gs => strContainsSub gs (pyStr genre)
          | none => false
      else rel
    let years := rel.filterMap fun p => p.1
    .ok (sortByFst (valueCounts years))

/-- The label column of the table `ages` returns: years in year mode,
English month names in month mode. -/
inductive PeriodLabel where
  | year (y : Nat)
  | name (s : String)
  deriving DecidableEq

/-- The month-name list of `ages`. -/
def month_names : List String :=
  ["January", "February", "March", "April", "May", "June",
   "July", "August", "September", "October", "November", "December"]

/-- `month_names[m - 1]` for a month number `m` (every month read from a
parsed date is in 1..12, so the Python index is always in range). -/
def monthName (m : Nat) : String := month_names.getD (m - 1) ""

/-- The `birth_year` column of the year branch of `ages`: drop rows with
a missing (`NaT`) birth date, extract the year, keep years below 2025. -/
def birth_years (chars : List CharacterRow) : List Nat :=
  ((chars.filter fun r => r.actor_date_of_birth.isSome).filterMap
    fun r => r.actor_date_of_birth.map Date.year).filter fun y => y < 2025

/-- The `birth_month` column of the month branch of `ages`: drop rows
with a missing (`NaT`) birth date and extract the month. -/
def birth_months (chars : List CharacterRow) : List Nat :=
  (chars.filter fun r => r.actor_date_of_birth.isSome).filterMap
    fun r => r.actor_date_of_birth.map Date.month

/-- `MovieDataAnalyzer.ages(period)`: any period other than the strings
"Y" and "M" is a `ValueError` raised before the tables are read. Rows
with a missing (`NaT`) birth date are dropped. In year mode the birth
years below 2025 are counted and sorted ascending; in month mode the
birth months are counted, sorted ascending by month number and then
relabelled with the English month names. -/
def ages (period : PyVal) (chars : List CharacterRow) :
    Except PyErr (List (PeriodLabel × Nat)) :=
  if !(pyEq period (.vstr "Y") || pyEq period (.vstr "M")) then
    .error (.valueError "period must be Y for year or M for month")
  else if pyEq period (.vstr "Y") then
    .ok ((sortByFst (valueCounts (birth_years chars))).map
      fun p => (.year p.1, p.2))
  else
    .ok ((sortByFst (valueCounts (birth_months chars))).map
      fun p => (.name (monthName p.1), p.2))

/-! ### Whole-method forms carrying the analyzer state

Each method of `MovieDataAnalyzer` reads the loaded tables through
`self` but never assigns to a `self` attribute: every intermediate frame
(`filtered_data`, `valid_births`, `releases`, ...) is a fresh local
object, and the in-place column assignments inside `ages` and `releases`
target those locals only (`dropna` returns a copy, not a view that
writes back). The state-passing forms below return the analyzer state
after the call alongside the result. -/

def movie_type_run (a : Analyzer) (n : PyVal) :
    Except PyErr (List (String × Nat)) × Analyzer :=
  (movie_type n a.movie_metadata, a)

def actor_count_run (a : Analyzer) : List (Nat × Nat) × Analyzer :=
  (actor_count a.characters, a)

def actor_distributions_run (a : Analyzer) (gender max_height min_height : PyVal) :
    Except PyErr (List (ℚ × Nat)) × Analyzer :=
  (actor_distributions gender max_height min_height a.characters, a)

def releases_run (a : Analyzer) (genre : PyVal) :
    Except PyErr (List (Nat × Nat)) × Analyzer :=
  (releases genre a.movie_metadata, a)

def ages_run (a : Analyzer) (period : PyVal) :
    Except PyErr (List (PeriodLabel × Nat)) × Analyzer :=
  (ages period a.characters, a)

/-- The total count a result table assigns to one period label (0 when
the label has no row; the label columns produced by `ages` are distinct,
so this is the count of the label's row when it has one). -/
def bucketCount (r : List (PeriodLabel × Nat)) (lbl : PeriodLabel) : Nat :=
  ((r.filter fun p => p.1 = lbl).map fun p => p.2).sum

/-- A raw date cell holding an accepted bare year: a string that strips
to exactly four ASCII digits whose value the `%Y` parse accepts (at
least 1 and with January 1 of it a representable timestamp, that is
1678..2262). Bare years outside this range parse to the `NaT`
sentinel. -/
def isBareYear (s : Option String) : Bool :=
  match s with
  | none => false
  | some t =>
    match parseYear4 (pyStrip t).toList with
    | some y => 1 ≤ y ∧ inTimestampRange y 1 1
    | none => false

/-- A raw character row whose raw birth date is the bare year 1500,
below the representable timestamp range. -/
def rawBareYear1500 : RawCharacterRow :=
  { wikipedia_movie_id := some 3
    freebase_movie_id := none
    movie_release_date := none
    character_name := none
    actor_date_of_birth := some "1500"
    actor_gender := some "M"
    actor_height := none
    actor_ethnicity := none
    actor_name := none
    actor_age_at_movie_release := none
    freebase_character_actor_map_id := none
    freebase_character_id := none
    freebase_actor_id := none }

/-- A small concrete movie table: one movie, released 1999, with the
single quoted genre fragment "Thriller". -/
def demoMovies : List MovieRow :=
  [{ wikipedia_movie_id := some 10
     freebase_movie_id := none
     movie_name := some "A"
     movie_release_date := some ⟨1999, 3, 5⟩
     movie_box_office_revenue := none
     movie_runtime := none
     movie_languages := none
     movie_countries := none
     movie_genres := some "\"Thriller\"" }]

/-- A character row with only the fields the height distribution reads. -/
def demoCharacter (id : Int) (g : String) (h : ℚ) : CharacterRow :=
  { wikipedia_movie_id := some id
    freebase_movie_id := none
    movie_release_date := none
    character_name := none
    actor_date_of_birth := none
    actor_gender := some g
    actor_height := some h
    actor_ethnicity := none
    actor_name := none
    actor_age_at_movie_release := none
    freebase_character_actor_map_id := none
    freebase_character_id := none
    freebase_actor_id := none }

/-- The character table of the example in the specification: two male
1.80m actors in movie 1, one female 1.65m actress in movie 2. -/
def demoCharacters : List CharacterRow :=
  [demoCharacter 1 "M" (9 / 5), demoCharacter 1 "M" (9 / 5),
   demoCharacter 2 "F" (33 / 20)]

/-! ### Lemmas about the list machinery -/

theorem firstDedupF_congr {α : Type} [DecidableEq α] :
    ∀ (fuel1 fuel2 : Nat) (l : List α), l.length ≤ fuel1 → l.length ≤ fuel2 →
      firstDedupF fuel1 l = firstDedupF fuel2 l
  | _, _, [], _, _ => by simp [firstDedupF]
  | f1 + 1, f2 + 1, a :: l, h1, h2 => by
    simp only [firstDedupF]
    congr 1
    exact firstDedupF_congr f1 f2 _
      (le_trans (List.length_filter_le _ _) (Nat.lt_succ_iff.1 h1))
      (le_trans (List.length_filter_le _ _) (Nat.lt_succ_iff.1 h2))
  | 0, _, _ :: _, h1, _ => absurd h1 (by simp)
  | _ + 1, 0, _ :: _, _, h2 => absurd h2 (by simp)

theorem firstDedup_nil {α : Type} [DecidableEq α] :
    firstDedup ([] : List α) = [] := rfl

theorem firstDedup_cons {α : Type} [DecidableEq α] (a : α) (l : List α) :
    firstDedup (a :: l) = a :: firstDedup (l.filter fun x => x ≠ a) := by
  show firstDedupF (a :: l).length (a :: l) = _
  rw [List.length_cons, firstDedupF]
  unfold firstDedup
  congr 1
  exact firstDedupF_congr _ _ _ (List.length_filter_le _ _) (le_refl _)

theorem mem_firstDedup {α : Type} [DecidableEq α] :
    ∀ (l : List α) (x : α), x ∈ firstDedup l ↔ x ∈ l
  | [], x => by simp [firstDedup_nil]
  | a :: l, x => by
    rw [firstDedup_cons]
    simp only [List.mem_cons, mem_firstDedup (l.filter fun y => y ≠ a) x,
      List.mem_filter]
    by_cases h : x = a
    · simp [h]
    · simp [h]
  termination_by l => l.length
  decreasing_by
    simp only [List.length_cons]
    exact Nat.lt_succ_of_le (List.length_filter_le _ _)

theorem nodup_firstDedup {α : Type} [DecidableEq α] :
    ∀ (l : List α), (firstDedup l).Nodup
  | [] => by simp [firstDedup_nil]
  | a :: l => by
    rw [firstDedup_cons]
    refine List.nodup_cons.2 ⟨?_, nodup_firstDedup _⟩
    rw [mem_firstDedup]
    simp
  termination_by l => l.length
  decreasing_by
    simp only [List.length_cons]
    exact Nat.lt_succ_of_le (List.length_filter_le _ _)

/-- Splitting a mapped sum over a filter and its complement. -/
theorem sum_map_split {α : Type} (p : α → Bool) (f : α → Nat) :
    ∀ l : List α,
      ((l.filter p).map f).sum + ((l.filter fun x => !p x).map f).sum
        = (l.map f).sum
  | [] => by simp
  | a :: l => by
    by_cases h : p a <;>
      simp only [List.filter_cons, h, Bool.not_true, Bool.not_false,
        if_true, if_false, List.map_cons, List.sum_cons, List.map,
        Bool.true_eq_false, Bool.false_eq_true, ite_true, ite_false] <;>
      have := sum_map_split p f l <;> omega

/-- Elements unequal to `a` have the same multiplicity after the `≠ a`
filter. -/
theorem count_filter_ne {α : Type} [DecidableEq α] (l : List α) {v a : α}
    (h : v ≠ a) : (l.filter fun y => y ≠ a).count v = l.count v := by
  induction l with
  | nil => simp
  | cons b l ih =>
    rw [List.filter_cons]
    by_cases hb : b = a
    · subst hb
      rw [if_neg (by simp), List.count_cons, if_neg (by simp [Ne.symm h]),
        Nat.add_zero]
      exact ih
    · rw [if_pos (by simp [hb]), List.count_cons, List.count_cons, ih]

/-- The mapped sum over the elements equal to `a` is the multiplicity of
`a` times its weight. -/
theorem sum_map_filter_eq {α : Type} [DecidableEq α] (f : α → Nat) (a : α) :
    ∀ l : List α, ((l.filter fun y => y = a).map f).sum = l.count a * f a
  | [] => by simp
  | b :: l => by
    rw [List.filter_cons]
    by_cases hb : b = a
    · subst hb
      rw [if_pos (by simp), List.map_cons, List.sum_cons,
        sum_map_filter_eq f b l, List.count_cons, if_pos (by simp)]
      ring
    · rw [if_neg (by simp [hb]), sum_map_filter_eq f a l, List.count_cons,
        if_neg (by simp [hb]), Nat.add_zero]

/-- The weighted count of every first-appearance-distinct value sums the
mapped list: the heart of every `value_counts` conservation law. -/
theorem sum_map_firstDedup {α : Type} [DecidableEq α] (f : α → Nat) :
    ∀ l : List α,
      ((firstDedup l).map fun v => f v * l.count v).sum = (l.map f).sum
  | [] => by simp [firstDedup_nil]
  | a :: l => by
    rw [firstDedup_cons]
    simp only [List.map_cons, List.sum_cons]
    have hrec := sum_map_firstDedup f (l.filter fun y => y ≠ a)
    have hcongr :
        ((firstDedup (l.filter fun y => y ≠ a)).map
            fun v => f v * (a :: l).count v).sum
          = ((firstDedup (l.filter fun y => y ≠ a)).map
              fun v => f v * (l.filter fun y => y ≠ a).count v).sum := by
      apply congrArg
      apply List.map_congr_left
      intro v hv
      have hvne : v ≠ a := by
        have := (mem_firstDedup _ v).1 hv
        simp only [List.mem_filter, ne_eq, decide_not,
          Bool.not_eq_eq_eq_not, Bool.not_true, decide_eq_false_iff_not] at this
        exact this.2
      rw [List.count_cons, if_neg (by simp [Ne.symm hvne]), Nat.add_zero,
        count_filter_ne l hvne]
    rw [hcongr, hrec]
    have hsplit := sum_map_split (fun y => decide (y ≠ a)) f l
    have hconst :
        ((l.filter fun y => !decide (y ≠ a)).map f).sum = l.count a * f a := by
      have hfe : (l.filter fun y => !decide (y ≠ a)) = l.filter fun y => y = a := by
        apply List.filter_congr
        intro x _
        simp
      rw [hfe]
      exact sum_map_filter_eq f a l
    have hca : (a :: l).count a = l.count a + 1 := by
      rw [List.count_cons, if_pos (by simp)]
    rw [hca, ← hsplit, hconst]
    ring
  termination_by l => l.length
  decreasing_by
    simp only [List.length_cons]
    exact Nat.lt_succ_of_le (List.length_filter_le _ _)

/-- Characterization of `value_counts` membership: exactly the distinct
values paired with their multiplicities. -/
theorem mem_valueCounts {α : Type} [DecidableEq α] {l : List α} {p : α × Nat} :
    p ∈ valueCounts l ↔ p.1 ∈ l ∧ p.2 = l.count p.1 := by
  unfold valueCounts
  rw [(List.perm_insertionSort sndGE _).mem_iff]
  simp only [List.mem_map]
  constructor
  · rintro ⟨v, hv, rfl⟩
    exact ⟨(mem_firstDedup _ _).1 hv, rfl⟩
  · rintro ⟨h1, h2⟩
    refine ⟨p.1, (mem_firstDedup _ _).2 h1, ?_⟩
    cases p with
    | mk v c => simp only at h2 ⊢; rw [h2]

/-- The keys of a `value_counts` table are pairwise distinct. -/
theorem nodup_keys_valueCounts {α : Type} [DecidableEq α] (l : List α) :
    ((valueCounts l).map Prod.fst).Nodup := by
  unfold valueCounts
  have hperm := (List.perm_insertionSort sndGE
    ((firstDedup l).map fun v => (v, l.count v))).map Prod.fst
  rw [hperm.nodup_iff]
  rw [List.map_map]
  have : (Prod.fst ∘ fun v : α => (v, l.count v)) = id := rfl
  rw [this, List.map_id]
  exact nodup_firstDedup l

/-- Any mapped sum over a `value_counts` table equals the mapped sum over
the raw (value, multiplicity) pairs. -/
theorem sum_map_valueCounts {α : Type} [DecidableEq α] (f : α × Nat → Nat)
    (l : List α) :
    ((valueCounts l).map f).sum
      = (((firstDedup l).map fun v => (v, l.count v)).map f).sum :=
  ((List.perm_insertionSort sndGE _).map f).sum_eq

/-- Conservation of weight: value times multiplicity summed over a
`value_counts` table gives the sum of the list. -/
theorem sum_mul_valueCounts (l : List Nat) :
    ((valueCounts l).map fun p => p.1 * p.2).sum = l.sum := by
  rw [sum_map_valueCounts, List.map_map]
  have h := sum_map_firstDedup id l
  simpa using h

/-- A list of ones sums to the length. -/
theorem sum_map_const_one {α : Type} : ∀ l : List α,
    (l.map fun _ => (1 : Nat)).sum = l.length
  | [] => rfl
  | a :: l => by
    rw [List.map_cons, List.sum_cons, sum_map_const_one l, List.length_cons]
    omega

/-- Conservation of count: the multiplicities in a `value_counts` table
sum to the length of the list. -/
theorem sum_counts_valueCounts {α : Type} [DecidableEq α] (l : List α) :
    ((valueCounts l).map fun p => p.2).sum = l.length := by
  rw [sum_map_valueCounts, List.map_map]
  have h := sum_map_firstDedup (fun _ => 1) l
  simp only [one_mul] at h
  rw [sum_map_const_one l] at h
  exact h

/-! ### Lemmas about the date normalizer -/

theorem parseMonthPart_bounds {cs : List Char} {m : Nat}
    (h : parseMonthPart cs = some m) : 1 ≤ m ∧ m ≤ 12 := by
  unfold parseMonthPart at h
  split at h
  · split_ifs at h with hc
    injection h with h'
    subst h'
    obtain ⟨h1, h2⟩ := hc
    simp only [isDig, decide_eq_true_eq] at h1
    unfold digitVal at h2 ⊢
    omega
  · split_ifs at h with hc
    injection h with h'
    subst h'
    exact ⟨hc.2.2.1, hc.2.2.2⟩
  · exact absurd h (by simp)

theorem parseYear4_shape {cs : List Char} {y : Nat}
    (h : parseYear4 cs = some y) :
    ∃ a b c d, cs = [a, b, c, d] ∧ isDig a = true ∧ isDig b = true ∧
      isDig c = true ∧ isDig d = true := by
  unfold parseYear4 at h
  split at h
  · split_ifs at h with hc
    exact ⟨_, _, _, _, rfl, by simpa using hc.1, by simpa using hc.2.1,
      by simpa using hc.2.2.1, by simpa using hc.2.2.2⟩
  · exact absurd h (by simp)

theorem splitOnDash_no_dash :
    ∀ cs : List Char, (∀ c ∈ cs, c ≠ '-') → splitOnDash cs = [cs]
  | [], _ => rfl
  | c :: rest, h => by
    unfold splitOnDash
    rw [if_neg (h c (List.mem_cons_self c rest))]
    rw [splitOnDash_no_dash rest fun x hx => h x (List.mem_cons_of_mem c hx)]

/-- A digit is not a dash. -/
theorem isDig_ne_dash {c : Char} (h : isDig c = true) : c ≠ '-' := by
  intro hc
  subst hc
  simp [isDig] at h

/-- The month of any date produced by one of the three format matchers
is in 1..12. -/
theorem to_datetime_month_bounds {t : String} {d : Date}
    (h : to_datetime_Ymd t = some d ∨ to_datetime_Ym t = some d ∨
      to_datetime_Y t = some d) :
    1 ≤ d.month ∧ d.month ≤ 12 := by
  rcases h with h | h | h
  · unfold to_datetime_Ymd at h
    split at h
    · split at h
      · split_ifs at h with hc
        injection h with h'
        subst h'
        rename_i hms _
        exact parseMonthPart_bounds hms
      · exact absurd h (by simp)
    · exact absurd h (by simp)
  · unfold to_datetime_Ym at h
    split at h
    · split at h
      · split_ifs at h with hc
        injection h with h'
        subst h'
        rename_i hms
        exact parseMonthPart_bounds hms
      · exact absurd h (by simp)
    · exact absurd h (by simp)
  · unfold to_datetime_Y at h
    split at h
    · split at h
      · split_ifs at h with hc
        injection h with h'
        subst h'
        exact ⟨le_refl 1, by norm_num⟩
      · exact absurd h (by simp)
    · exact absurd h (by simp)

/-- The month of any date produced by `parse_date` is in 1..12. -/
theorem parse_date_month_bounds {s : Option String} {d : Date}
    (h : parse_date s = some d) : 1 ≤ d.month ∧ d.month ≤ 12 := by
  match s with
  | none => exact absurd h (by simp [parse_date])
  | some t =>
    unfold parse_date at h
    simp only at h
    cases h1 : to_datetime_Ymd (pyStrip t) with
    | some d1 =>
      rw [h1] at h
      injection h with h'
      subst h'
      exact to_datetime_month_bounds (Or.inl h1)
    | none =>
      rw [h1] at h
      cases h2 : to_datetime_Ym (pyStrip t) with
      | some d2 =>
        rw [h2] at h
        injection h with h'
        subst h'
        exact to_datetime_month_bounds (Or.inr (Or.inl h2))
      | none =>
        rw [h2] at h
        exact to_datetime_month_bounds (Or.inr (Or.inr h))

/-- Zero-fill of a bare year: when the stripped input is exactly four
digits with value at least 1, the first two formats fail, the `%Y`
format matches, and the parsed date is January 1 of that year. -/
theorem parse_date_bare_year {t : String} {y : Nat}
    (hy : parseYear4 (pyStrip t).toList = some y) (h1 : 1 ≤ y)
    (hr : inTimestampRange y 1 1 = true) :
    parse_date (some t) = some ⟨y, 1, 1⟩ := by
  obtain ⟨a, b, c, d, hcs, ha, hb, hc, hd⟩ := parseYear4_shape hy
  have hnod : ∀ ch ∈ (pyStrip t).toList, ch ≠ '-' := by
    rw [hcs]
    intro ch hch
    simp only [List.mem_cons, List.not_mem_nil, or_false] at hch
    rcases hch with rfl | rfl | rfl | rfl
    · exact isDig_ne_dash ha
    · exact isDig_ne_dash hb
    · exact isDig_ne_dash hc
    · exact isDig_ne_dash hd
  have hsplit := splitOnDash_no_dash _ hnod
  unfold parse_date
  simp only
  rw [show to_datetime_Ymd (pyStrip t) = none by
    unfold to_datetime_Ymd; rw [hsplit]]
  rw [show to_datetime_Ym (pyStrip t) = none by
    unfold to_datetime_Ym; rw [hsplit]]
  unfold to_datetime_Y
  rw [hsplit]
  simp only [hy]
  rw [if_pos ⟨h1, hr⟩]

/-- The day of any date produced by the `%Y-%m` matcher is zero-filled
to 1. -/
theorem to_datetime_Ym_day {t : String} {d : Date}
    (h : to_datetime_Ym t = some d) : d.day = 1 := by
  unfold to_datetime_Ym at h
  split at h
  · split at h
    · split_ifs at h
      injection h with h'
      subst h'
      rfl
    · exact absurd h (by simp)
  · exact absurd h (by simp)

/-- A `PyVal` equals a string under Python `==` exactly when it is that
string. -/
theorem pyEq_vstr_iff (v : PyVal) (t : String) :
    pyEq v (.vstr t) = true ↔ v = .vstr t := by
  cases v <;> simp [pyEq, isNumericInstance]

/-! ### The claims -/

/-- C2, counterexample: the claim says `ages` accepts the period value
"year", but the code only accepts "Y" and "M", so the input "year"
raises `ValueError`. -/
theorem ages_period_year_string_rejected :
    ages (.vstr "year") [] =
      .error (.valueError "period must be Y for year or M for month") := by
  rfl

/-- C2 (amended): `ages` accepts exactly the period values "Y" and "M":
for those two inputs it returns a result, and for every other input
value (of any runtime type) it raises `ValueError` without reading the
loaded tables (the error is the same for every characters table). -/
theorem ages_period_validation (period : PyVal) (chars : List CharacterRow) :
    ((period = .vstr "Y" ∨ period = .vstr "M") →
      ∃ r, ages period chars = .ok r) ∧
    (period ≠ .vstr "Y" → period ≠ .vstr "M" →
      ages period chars =
        .error (.valueError "period must be Y for year or M for month")) := by
  constructor
  · rintro (rfl | rfl)
    · exact ⟨_, rfl⟩
    · exact ⟨_, rfl⟩
  · intro h1 h2
    have e1 : pyEq period (.vstr "Y") = false := by
      rw [Bool.eq_false_iff]
      intro hx
      exact h1 ((pyEq_vstr_iff _ _).1 hx)
    have e2 : pyEq period (.vstr "M") = false := by
      rw [Bool.eq_false_iff]
      intro hx
      exact h2 ((pyEq_vstr_iff _ _).1 hx)
    simp [ages, e1, e2]

/-- C3: `parse_date` is total (it is a function into `Option Date`, the
`none` value being the `NaT` sentinel, and raises nothing - each format
attempt's `ValueError`, the out-of-range `OutOfBoundsDatetime`
included, is caught): a null input gives `NaT`; when all three format
attempts fail the result is `NaT`; the formats are tried in the order
full date, year-month, year-only and the first attempt that succeeds
wins; a year-month input zero-fills the day to 1; a bare four-digit
year accepted by `%Y` (at least 1, representable as a timestamp)
zero-fills month and day to 1, so "1999" parses to 1999-01-01 while the
out-of-range bare year "1500" yields `NaT`. -/
theorem parse_date_total_priority :
    (parse_date none = none) ∧
    (∀ s : String, to_datetime_Ymd (pyStrip s) = none →
      to_datetime_Ym (pyStrip s) = none → to_datetime_Y (pyStrip s) = none →
      parse_date (some s) = none) ∧
    (∀ (s : String) (d : Date), to_datetime_Ymd (pyStrip s) = some d →
      parse_date (some s) = some d) ∧
    (∀ (s : String) (d : Date), to_datetime_Ymd (pyStrip s) = none →
      to_datetime_Ym (pyStrip s) = some d → parse_date (some s) = some d) ∧
    (∀ (t : String) (d : Date), to_datetime_Ym t = some d → d.day = 1) ∧
    (∀ (t : String) (y : Nat), parseYear4 (pyStrip t).toList = some y →
      1 ≤ y → inTimestampRange y 1 1 = true →
      parse_date (some t) = some ⟨y, 1, 1⟩) ∧
    (parse_date (some "1999") = some ⟨1999, 1, 1⟩) ∧
    (parse_date (some "1500") = none) := by
  refine ⟨rfl, ?_, ?_, ?_, ?_, ?_, ?_, ?_⟩
  · intro s h1 h2 h3
    simp [parse_date, h1, h2, h3]
  · intro s d h1
    simp [parse_date, h1]
  · intro s d h1 h2
    simp [parse_date, h1, h2]
  · intro t d h
    exact to_datetime_Ym_day h
  · intro t y hy h1 hr
    exact parse_date_bare_year hy h1 hr
  · exact parse_date_bare_year (t := "1999") (y := 1999) (by rfl) (by norm_num)
      (by rfl)
  · rfl

/-- C9: none of the five aggregation operations changes any of the five
loaded tables: each method only derives fresh local frames from them
(`dropna` copies; the column assignments inside `ages` and the local
frame of `releases` mutate those copies only), so the analyzer state
after any call, with any arguments, is the state before it. -/
theorem aggregations_preserve_tables (a : Analyzer)
    (n gender max_height min_height genre period : PyVal) :
    (movie_type_run a n).2 = a ∧
    (actor_count_run a).2 = a ∧
    (actor_distributions_run a gender max_height min_height).2 = a ∧
    (releases_run a genre).2 = a ∧
    (ages_run a period).2 = a :=
  ⟨rfl, rfl, rfl, rfl, rfl⟩

/-- C10: every genre check and the genre filter in `releases` is guarded
by the truthiness of the argument, so any falsy genre - the empty
string, zero, `False`, `None` - behaves exactly like `None`: no
`TypeError`, no genre-existence check, no filtering, and a normal
result. -/
theorem releases_falsy_genre (movies : List MovieRow) (g : PyVal)
    (h : pyTruthy g = false) :
    releases g movies = releases .vnone movies ∧
    ∃ r, releases g movies = .ok r := by
  have hnone : pyTruthy PyVal.vnone = false := rfl
  have hmain : releases g movies = releases .vnone movies := by
    simp [releases, h, hnone]
  refine ⟨hmain, ?_⟩
  rw [hmain]
  exact ⟨_, rfl⟩

/-- C10, witness at the empty string and a concrete table. -/
theorem releases_falsy_genre_witness :
    pyTruthy (PyVal.vstr "") = false ∧
    (releases (PyVal.vstr "") demoMovies = releases PyVal.vnone demoMovies ∧
      ∃ r, releases (PyVal.vstr "") demoMovies = .ok r) :=
  ⟨rfl, releases_falsy_genre demoMovies (PyVal.vstr "") rfl⟩

/-- C8, counterexample: the claim says every provided non-string genre
raises `TypeError`, but the falsy non-string genre 0 passes both guards
and the call returns the year counts normally. -/
theorem releases_int_zero_genre_no_error :
    releases (PyVal.vint 0) demoMovies = .ok [(1999, 1)] := by
  rfl

/-- C8 (amended): a provided genre that is truthy and not a string
raises `TypeError`; a provided truthy (non-empty) genre string that does
not occur among the double-quoted fragments (Freebase ids or display
names) of the loaded movie genre strings raises `ValueError`; both
checks run before any counting, and falsy genres bypass them. -/
theorem releases_genre_validation (movies : List MovieRow) (genre : PyVal) :
    (pyTruthy genre = true → isStrInstance genre = false →
      releases genre movies = .error (.typeError "genre must be a string")) ∧
    (∀ s : String, s ≠ "" → (valid_genres movies).contains s = false →
      releases (.vstr s) movies = .error (.valueError "Invalid genre")) := by
  constructor
  · intro h1 h2
    simp [releases, h1, h2]
  · intro s hs hc
    have ht : pyTruthy (PyVal.vstr s) = true := by simp [pyTruthy, hs]
    have hc2 : s ∉ valid_genres movies := by simpa using hc
    simp [releases, ht, hc2, isStrInstance, pyStr]

/-- C5: `actor_distributions` validates eagerly, before any aggregation
(for invalid arguments the result is the same error for every characters
table): a non-string gender is a `TypeError`; a non-numeric bound
(numeric meaning int, float or bool, as `isinstance` sees it) is a
`TypeError`; numeric bounds with `max_height < min_height` are a
`ValueError`; numeric bounds with either bound nonpositive or above 3
are a `ValueError`. -/
theorem actor_distributions_validation_spec (gender mx mn : PyVal)
    (chars : List CharacterRow) :
    (isStrInstance gender = false →
      actor_distributions gender mx mn chars =
        .error (.typeError "gender must be a string")) ∧
    (isStrInstance gender = true →
      (isNumericInstance mx = false ∨ isNumericInstance mn = false) →
      actor_distributions gender mx mn chars =
        .error (.typeError "max_height and min_height must be numeric")) ∧
    (isStrInstance gender = true → isNumericInstance mx = true →
      isNumericInstance mn = true → pyToRat mx < pyToRat mn →
      actor_distributions gender mx mn chars =
        .error (.valueError
          "max_height must be greater than or equal to min_height")) ∧
    (isStrInstance gender = true → isNumericInstance mx = true →
      isNumericInstance mn = true →
      (pyToRat mx ≤ 0 ∨ pyToRat mn ≤ 0 ∨ 3 < pyToRat mx ∨ 3 < pyToRat mn) →
      ∃ msg, actor_distributions gender mx mn chars =
        .error (.valueError msg)) := by
  refine ⟨?_, ?_, ?_, ?_⟩
  · intro h
    simp [actor_distributions, h]
  · intro h1 h2
    rcases h2 with h2 | h2 <;> simp [actor_distributions, h1, h2]
  · intro h1 h2 h3 h4
    simp [actor_distributions, h1, h2, h3, h4]
  · intro h1 h2 h3 h4
    by_cases h5 : pyToRat mx < pyToRat mn
    · refine ⟨"max_height must be greater than or equal to min_height", ?_⟩
      simp [actor_distributions, h1, h2, h3, h5]
    · refine ⟨"max_height and min_height must be positive values", ?_⟩
      simp [actor_distributions, h1, h2, h3, h5, h4]

/-- The length of `filterMap` is the number of elements the function
keeps. -/
theorem length_filterMap_isSome {α β : Type} (f : α → Option β)
    (l : List α) :
    (l.filterMap f).length = (l.filter fun x => (f x).isSome).length := by
  induction l with
  | nil => rfl
  | cons a l ih =>
    cases hf : f a <;>
      simp [List.filterMap_cons, List.filter_cons, hf, ih]

/-- C6: the `actor_count` histogram obeys the conservation law - the
number of actors times the number of movies with that many actors,
summed over the histogram, is the total number of character rows whose
movie id is present (rows with a missing id are dropped by the
grouping) - and the histogram is sorted ascending by the number of
actors. -/
theorem actor_count_conservation (chars : List CharacterRow) :
    (((actor_count chars).map fun p => p.1 * p.2).sum
        = (chars.filter fun c => c.wikipedia_movie_id.isSome).length) ∧
    List.Sorted fstLE (actor_count chars) := by
  constructor
  · unfold actor_count sortByFst
    have h1 := ((List.perm_insertionSort fstLE
      (valueCounts ((List.insertionSort ascLE
        (firstDedup (chars.filterMap fun r => r.wikipedia_movie_id))).map
          fun k => (chars.filterMap fun r => r.wikipedia_movie_id).count k))).map
      fun p : Nat × Nat => p.1 * p.2).sum_eq
    rw [h1, sum_mul_valueCounts]
    have h2 := ((List.perm_insertionSort ascLE
      (firstDedup (chars.filterMap fun r => r.wikipedia_movie_id))).map
      fun k => (chars.filterMap fun r => r.wikipedia_movie_id).count k).sum_eq
    rw [h2]
    have h3 := sum_map_firstDedup (fun _ => 1)
      (chars.filterMap fun r => r.wikipedia_movie_id)
    simp only [one_mul] at h3
    rw [sum_map_const_one] at h3
    rw [h3]
    exact length_filterMap_isSome _ _
  · unfold actor_count sortByFst
    exact List.sorted_insertionSort fstLE _

/-- C7: for a valid request (a positive integer `n`), `movie_type`
returns at most `n` rows ordered by descending count, and whenever `n`
is at least the number of distinct genre tokens in the loaded movie
data, exactly that many rows - no error and no padding. -/
theorem movie_type_result (movies : List MovieRow) (n : Int) (h : 0 < n) :
    ∃ r, movie_type (.vint n) movies = .ok r ∧
      r.length ≤ n.toNat ∧
      ((distinctGenreCount movies : Int) ≤ n →
        r.length = distinctGenreCount movies) ∧
      List.Sorted sndGE r := by
  have hok : movie_type (.vint n) movies =
      .ok ((valueCounts (allGenreTokens movies)).take n.toNat) := by
    simp [movie_type, isIntInstance, pyToInt, not_le.mpr h]
  have hvl : (valueCounts (allGenreTokens movies)).length
      = distinctGenreCount movies := by
    unfold valueCounts distinctGenreCount
    rw [(List.perm_insertionSort sndGE _).length_eq, List.length_map]
  refine ⟨_, hok, ?_, ?_, ?_⟩
  · rw [List.length_take]
    exact min_le_left _ _
  · intro hd
    rw [List.length_take, hvl]
    have : distinctGenreCount movies ≤ n.toNat := by omega
    omega
  · exact List.Pairwise.sublist (List.take_sublist _ _)
      (List.sorted_insertionSort sndGE _)

/-- C7, witness: at the one-movie table with one distinct genre token,
`movie_type(5)` returns exactly that one row. -/
theorem movie_type_result_witness :
    (0 : Int) < 5 ∧
    ∃ r, movie_type (.vint 5) demoMovies = .ok r ∧
      r.length ≤ (5 : Int).toNat ∧
      ((distinctGenreCount demoMovies : Int) ≤ 5 →
        r.length = distinctGenreCount demoMovies) ∧
      List.Sorted sndGE r :=
  ⟨by norm_num, movie_type_result demoMovies 5 (by norm_num)⟩

/-- Every height in the filtered height column lies in the requested
inclusive range. -/
theorem mem_height_series_bounds {g : String} {minq maxq x : ℚ}
    {chars : List CharacterRow} (hx : x ∈ height_series g minq maxq chars) :
    minq ≤ x ∧ x ≤ maxq := by
  unfold height_series at hx
  simp only at hx
  obtain ⟨c, hc3, hch⟩ := List.mem_filterMap.1 hx
  have hc2 := (List.mem_filter.1 hc3).1
  have hcond := (List.mem_filter.1 hc2).2
  rw [hch] at hcond
  simp only [Bool.and_eq_true, decide_eq_true_eq] at hcond
  exact ⟨hcond.2, hcond.1⟩

/-- For an in-range height the multiplicity in the filtered height
column is the number of character rows with matching gender (any gender
when the request is "All") and exactly that height; rows with a missing
height never contribute. -/
theorem count_height_series {g : String} {minq maxq x : ℚ}
    (chars : List CharacterRow) (hlo : minq ≤ x) (hhi : x ≤ maxq) :
    (height_series g minq maxq chars).count x =
      (chars.filter fun c =>
        decide ((g = "All" ∨ c.actor_gender = some g) ∧
          c.actor_height = some x)).length := by
  unfold height_series
  simp only
  rw [List.count_filterMap, List.countP_filter, List.countP_filter]
  by_cases hall : g = "All"
  · rw [if_neg (by simp [hall])]
    rw [← List.countP_eq_length_filter]
    apply List.countP_congr
    intro c _
    cases hc : c.actor_height with
    | none => simp [hc, hall]
    | some h =>
      by_cases hxh : h = x
      · subst hxh
        simp [hc, hall, hlo, hhi]
      · simp [hc, hall, hxh, Ne.symm hxh]
  · rw [if_pos (by simp [hall])]
    rw [List.countP_filter, ← List.countP_eq_length_filter]
    apply List.countP_congr
    intro c _
    cases hc : c.actor_height with
    | none => simp [hc, hall]
    | some h =>
      by_cases hxh : h = x
      · subst hxh
        by_cases hg : c.actor_gender = some g <;> simp [hc, hall, hlo, hhi, hg]
      · simp [hc, hall, hxh, Ne.symm hxh]

/-- C4: for every validated call, every returned (height, count) pair
satisfies min_height ≤ height ≤ max_height; each count is exactly the
number of character rows with that height whose gender matches the
request exactly (or any gender for "All"), so rows with a missing height
contribute nothing; and on the specification's example table the call
with gender "M" and range [1.5, 2.0] returns exactly [(1.80, 2)]. -/
theorem actor_distributions_correct :
    (∀ (g : String) (minq maxq : ℚ) (chars : List CharacterRow),
      0 < minq → minq ≤ maxq → maxq ≤ 3 →
      ∃ r, actor_distributions (.vstr g) (.vfloat maxq) (.vfloat minq) chars
          = .ok r ∧
        (∀ p ∈ r, minq ≤ p.1 ∧ p.1 ≤ maxq) ∧
        (∀ p ∈ r, p.2 = (chars.filter fun c =>
          decide ((g = "All" ∨ c.actor_gender = some g) ∧
            c.actor_height = some p.1)).length)) ∧
    actor_distributions (.vstr "M") (.vfloat 2) (.vfloat (3 / 2))
      demoCharacters = .ok [(9 / 5, 2)] := by
  constructor
  · intro g minq maxq chars h0 h1 h2
    have hnotlt : ¬ (maxq < minq) := not_lt.mpr h1
    have hrange : ¬ (maxq ≤ 0 ∨ minq ≤ 0 ∨ 3 < maxq ∨ 3 < minq) := by
      push_neg
      refine ⟨by linarith, by linarith, by linarith, by linarith⟩
    have hok : actor_distributions (.vstr g) (.vfloat maxq) (.vfloat minq) chars
        = .ok (sortByFst (valueCounts (height_series g minq maxq chars))) := by
      simp [actor_distributions, isStrInstance, isNumericInstance, pyToRat,
        pyStr, hnotlt, hrange]
    refine ⟨_, hok, ?_, ?_⟩
    · intro p hp
      rw [sortByFst, (List.perm_insertionSort fstLE _).mem_iff] at hp
      obtain ⟨hm, _⟩ := mem_valueCounts.1 hp
      exact mem_height_series_bounds hm
    · intro p hp
      rw [sortByFst, (List.perm_insertionSort fstLE _).mem_iff] at hp
      obtain ⟨hm, hc⟩ := mem_valueCounts.1 hp
      obtain ⟨hlo, hhi⟩ := mem_height_series_bounds hm
      rw [hc]
      exact count_height_series chars hlo hhi
  · have e1 : ((9:ℚ)/5 ≤ 2) := by norm_num
    have e2 : ((3:ℚ)/2 ≤ 9/5) := by norm_num
    have e3 : ¬ ((2:ℚ) < 3/2) := by norm_num
    have e4 : ¬ ((2:ℚ) ≤ 0 ∨ (3:ℚ)/2 ≤ 0 ∨ (3:ℚ) < 2 ∨ (3:ℚ) < 3/2) := by
      norm_num
    simp [actor_distributions, isStrInstance, isNumericInstance, pyToRat,
      pyStr, e3, e4, height_series, demoCharacters, demoCharacter,
      valueCounts, firstDedup, firstDedupF, sortByFst, List.insertionSort,
      List.orderedInsert, List.count_cons, e1, e2]

/-- The twelve month names are pairwise distinct. -/
theorem monthName_inj {x y : Nat} (hx1 : 1 ≤ x) (hx2 : x ≤ 12)
    (hy1 : 1 ≤ y) (hy2 : y ≤ 12) (h : monthName x = monthName y) : x = y := by
  interval_cases x <;> interval_cases y <;> simp_all [monthName, month_names]

/-- The name of a month number in 1..12 is one of the twelve names. -/
theorem monthName_mem {m : Nat} (h1 : 1 ≤ m) (h2 : m ≤ 12) :
    monthName m ∈ month_names := by
  interval_cases m <;> simp [monthName, month_names]

/-- In a table with pairwise-distinct keys, filtering for the key of a
present row yields exactly that row. -/
theorem filter_key_singleton {β γ : Type} [DecidableEq β] :
    ∀ (L : List (β × γ)), (L.map Prod.fst).Nodup → ∀ {m : β} {c : γ},
      (m, c) ∈ L → L.filter (fun p => p.1 = m) = [(m, c)]
  | [], _, _, _, h => absurd h (List.not_mem_nil _)
  | q :: L, hnd, m, c, h => by
    rw [List.map_cons, List.nodup_cons] at hnd
    rcases List.mem_cons.1 h with rfl | hmem
    · rw [List.filter_cons, if_pos (by simp)]
      have hnil : ∀ p ∈ L, ¬(p.1 = (m, c).1) := by
        intro p hp hpm
        exact hnd.1 (hpm ▸ List.mem_map_of_mem Prod.fst hp)
      rw [List.filter_eq_nil_iff.2 (by
        intro p hp
        simpa using hnil p hp)]
    · have hq : q.1 ≠ m := by
        intro he
        exact hnd.1 (he ▸ List.mem_map_of_mem Prod.fst hmem)
      rw [List.filter_cons, if_neg (by simp [hq])]
      exact filter_key_singleton L hnd.2 hmem

/-- The multiplicity of a month in the `birth_month` column is the
number of character rows whose parsed birth date has that month (rows
with the `NaT` sentinel have no month and are never counted). -/
theorem count_birth_months (chars : List CharacterRow) (m : Nat) :
    (birth_months chars).count m =
      (chars.filter fun c =>
        c.actor_date_of_birth.map Date.month = some m).length := by
  unfold birth_months
  rw [List.count_filterMap, List.countP_filter, ← List.countP_eq_length_filter]
  apply List.countP_congr
  intro c _
  cases hc : c.actor_date_of_birth with
  | none => simp [hc]
  | some d => simp [hc]

/-- The `birth_month` column has one entry per row with a present birth
date. -/
theorem length_birth_months (chars : List CharacterRow) :
    (birth_months chars).length =
      (chars.filter fun c => c.actor_date_of_birth.isSome).length := by
  unfold birth_months
  rw [length_filterMap_isSome]
  congr 1
  rw [List.filter_eq_self]
  intro c hc
  have := (List.mem_filter.1 hc).2
  cases hd : c.actor_date_of_birth with
  | none => rw [hd] at this; simp at this
  | some d => simp [hd]



/-- C1, counterexample: the claim says every character row whose raw
birth date was a bare year contributes to the "January" bucket, but the
bare year "1500" is below the representable timestamp range, so the
program's `parse_date` catches `OutOfBoundsDatetime` and yields the
`NaT` sentinel and the row contributes to no bucket at all. -/
theorem ages_bare_year_1500_no_bucket :
    parse_date (some "1500") = none ∧
    ages (.vstr "M") (loadCharacters [rawBareYear1500]) = .ok [] :=
  ⟨rfl, rfl⟩

/-- C1 (amended): in month mode, every period label `ages` returns is
one of the twelve full English month names; the count of each month
bucket is exactly the number of loaded rows whose parsed birth date has
that month and the counts sum to the number of rows with a known birth
date, so rows with the `NaT` sentinel contribute to no bucket; and every
row whose raw birth date is a bare year that the `%Y` parse accepts
(within the representable timestamp range, years 1678..2262) parses to
month 1, hence is counted in the "January" bucket, whose count is at
least the number of such rows. -/
theorem ages_month_mode (raws : List RawCharacterRow) :
    ∃ r, ages (.vstr "M") (loadCharacters raws) = .ok r ∧
      (∀ p ∈ r, p.1 ∈ month_names.map PeriodLabel.name) ∧
      (∀ m, 1 ≤ m → m ≤ 12 →
        bucketCount r (.name (monthName m)) =
          ((loadCharacters raws).filter fun c =>
            c.actor_date_of_birth.map Date.month = some m).length) ∧
      ((r.map fun p => p.2).sum =
        ((loadCharacters raws).filter fun c =>
          c.actor_date_of_birth.isSome).length) ∧
      (∀ raw ∈ raws, isBareYear raw.actor_date_of_birth = true →
        (parse_date raw.actor_date_of_birth).map Date.month = some 1) ∧
      (bucketCount r (.name "January") ≥
        (raws.filter fun raw => isBareYear raw.actor_date_of_birth).length) := by
  have hbare : ∀ raw : RawCharacterRow, isBareYear raw.actor_date_of_birth = true →
      (parse_date raw.actor_date_of_birth).map Date.month = some 1 := by
    intro raw hby
    unfold isBareYear at hby
    cases hdob : raw.actor_date_of_birth with
    | none => rw [hdob] at hby; simp at hby
    | some t =>
      rw [hdob] at hby
      have hby2 : (match parseYear4 (pyStrip t).toList with
          | some y => decide (1 ≤ y ∧ inTimestampRange y 1 1 = true)
          | none => false) = true := hby
      cases hp4 : parseYear4 (pyStrip t).toList with
      | none => rw [hp4] at hby2; simp at hby2
      | some y =>
        rw [hp4] at hby2
        simp only [decide_eq_true_eq] at hby2
        rw [parse_date_bare_year hp4 hby2.1 hby2.2]
        rfl
  set chars := loadCharacters raws with hchars
  set ms := birth_months chars with hms
  set L := sortByFst (valueCounts ms) with hL
  have hqmem : ∀ q : Nat × Nat, q ∈ L → q.1 ∈ ms ∧ q.2 = ms.count q.1 := by
    intro q hq
    rw [hL, sortByFst, (List.perm_insertionSort fstLE _).mem_iff] at hq
    exact mem_valueCounts.1 hq
  have hwf : ∀ m ∈ ms, 1 ≤ m ∧ m ≤ 12 := by
    intro m hm
    rw [hms] at hm
    unfold birth_months at hm
    obtain ⟨c, hcf, hcm⟩ := List.mem_filterMap.1 hm
    have hcc : c ∈ chars := (List.mem_filter.1 hcf).1
    rw [hchars] at hcc
    obtain ⟨raw, _, rfl⟩ := List.mem_map.1 hcc
    obtain ⟨d, hd, hdm⟩ := Option.map_eq_some'.1 hcm
    have hb := parse_date_month_bounds (s := raw.actor_date_of_birth) (d := d) hd
    rw [← hdm]
    exact hb
  have hnd : (L.map Prod.fst).Nodup := by
    rw [hL, sortByFst,
      ((List.perm_insertionSort fstLE (valueCounts ms)).map Prod.fst).nodup_iff]
    exact nodup_keys_valueCounts ms
  have hbucket : ∀ m, 1 ≤ m → m ≤ 12 →
      bucketCount (L.map fun q => (.name (monthName q.1), q.2))
        (.name (monthName m)) = ms.count m := by
    intro m h1 h2
    unfold bucketCount
    rw [List.filter_map, List.map_map]
    have hfc : L.filter
        ((fun p : PeriodLabel × Nat => decide (p.1 = .name (monthName m))) ∘
          fun q : Nat × Nat => ((PeriodLabel.name (monthName q.1)), q.2)) =
        L.filter fun q => decide (q.1 = m) := by
      apply List.filter_congr
      intro q hq
      obtain ⟨hq1, _⟩ := hqmem q hq
      obtain ⟨hb1, hb2⟩ := hwf q.1 hq1
      by_cases hqm : q.1 = m
      · simp [hqm]
      · have hne : ¬ (PeriodLabel.name (monthName q.1) = .name (monthName m)) := by
          intro he
          exact hqm (monthName_inj hb1 hb2 h1 h2 (by simpa using he))
        simp [hqm, hne]
    rw [hfc]
    by_cases hmem : m ∈ ms
    · have hp : ((m, ms.count m) : Nat × Nat) ∈ L := by
        rw [hL, sortByFst, (List.perm_insertionSort fstLE _).mem_iff]
        exact mem_valueCounts.2 ⟨hmem, rfl⟩
      rw [filter_key_singleton L hnd hp]
      rfl
    · have hzero : ms.count m = 0 := List.count_eq_zero.2 hmem
      rw [List.filter_eq_nil_iff.2 ?_, hzero]
      · rfl
      · intro q hq
        have hq1 := (hqmem q hq).1
        simp only [decide_eq_true_eq]
        intro he
        exact hmem (he ▸ hq1)
  refine ⟨L.map fun q : Nat × Nat => (PeriodLabel.name (monthName q.1), q.2),
    rfl, ?_, ?_, ?_, fun raw _ => hbare raw, ?_⟩
  · intro p hp
    obtain ⟨q, hq, rfl⟩ := List.mem_map.1 hp
    obtain ⟨hq1, _⟩ := hqmem q hq
    obtain ⟨hb1, hb2⟩ := hwf q.1 hq1
    exact List.mem_map_of_mem PeriodLabel.name (monthName_mem hb1 hb2)
  · intro m h1 h2
    rw [hbucket m h1 h2, hms]
    exact count_birth_months chars m
  · rw [List.map_map]
    have hcomp2 : ((fun p : PeriodLabel × Nat => p.2) ∘
        fun q : Nat × Nat => ((PeriodLabel.name (monthName q.1)), q.2)) =
        fun q : Nat × Nat => q.2 := rfl
    rw [hcomp2, hL, sortByFst,
      ((List.perm_insertionSort fstLE (valueCounts ms)).map
        fun q : Nat × Nat => q.2).sum_eq,
      sum_counts_valueCounts, hms]
    exact length_birth_months chars
  · have hj := hbucket 1 (by norm_num) (by norm_num)
    have hmn : monthName 1 = "January" := rfl
    rw [hmn] at hj
    rw [hj, hms, count_birth_months chars 1, hchars]
    unfold loadCharacters
    rw [List.filter_map, List.length_map, ← List.countP_eq_length_filter,
      ← List.countP_eq_length_filter]
    apply List.countP_mono_left
    intro raw _ hby
    simp only [Function.comp, decide_eq_true_eq]
    exact hbare raw hby

end MovieData
